import Mathlib

/-
Verification of the sloglog structured-logging library.

The Go sources are shallowly embedded: slog levels are integers (Debug = -4,
Info = 0, Warn = 4, Error = 8), wall-clock instants are explicit `GoTime`
values, attribute values are carried as their textual rendering
(`a.Value.String()`), and the filesystem's responses to `os.MkdirAll` /
`os.OpenFile` are explicit boolean inputs.  Fallible Go code (the unchecked
type assertion in `GetTraceID`) is embedded with `Except`.
-/

namespace Sloglog

/-- slog level constants from the Go standard library. -/
def levelDebug : Int := -4

def levelInfo : Int := 0

def levelWarn : Int := 4

def levelError : Int := 8

/-- A wall-clock instant as captured by `time.Now()`, with its timezone
abbreviation (what the Go layouts used by the code can observe). -/
structure GoTime where
  year : Nat
  month : Nat
  day : Nat
  hour : Nat
  minute : Nat
  second : Nat
  millis : Nat
  tz : String
  deriving DecidableEq

/-- Zero-pad a decimal number to width `w`, as Go's time layouts do. -/
def padZero (w : Nat) (n : Nat) : String :=
  String.mk (List.replicate (w - (toString n).length) '0') ++ toString n

/-- Go layout "2006-01-02". -/
def GoTime.formatDate (t : GoTime) : String :=
  padZero 4 t.year ++ "-" ++ padZero 2 t.month ++ "-" ++ padZero 2 t.day

/-- Go layout "2006-01-02 15:04:05.000", used by `formatLogEntry`. -/
def GoTime.formatFileTs (t : GoTime) : String :=
  GoTime.formatDate t ++ " " ++ padZero 2 t.hour ++ ":" ++ padZero 2 t.minute ++ ":" ++
    padZero 2 t.second ++ "." ++ padZero 3 t.millis

/-- Go layout "2006-01-02 15:04:05 MST", used by `CustomHandler.Handle`. -/
def GoTime.formatConsoleTs (t : GoTime) : String :=
  GoTime.formatDate t ++ " " ++ padZero 2 t.hour ++ ":" ++ padZero 2 t.minute ++ ":" ++
    padZero 2 t.second ++ " " ++ t.tz

/-- One slog attribute; `value` is its textual rendering `a.Value.String()`. -/
structure Attr where
  key : String
  value : String
  deriving DecidableEq

/-- The slog.Record built by `Logger.log`: timestamp, level, message and the
ordered attribute list added with `AddAttrs`. -/
structure LogRecord where
  time : GoTime
  level : Int
  message : String
  attrs : List Attr
  deriving DecidableEq

/-- A Go interface value stored under a carrier key: either a string or a value
of some other dynamic type (named for the error message). -/
inductive GoValue
  | str (s : String)
  | nonStr (typeName : String)
  deriving DecidableEq

/-- The carrier shapes `GetTraceID` distinguishes at run time: Go `nil`, a
`*fasthttp.RequestCtx` (mutable user-value bag), a `context.Context` (value
chain), or any other value. -/
inductive Carrier
  | nilCarrier
  | fasthttpCtx (userValues : List (String × GoValue))
  | stdCtx (values : List (String × GoValue))
  | otherCarrier
  deriving DecidableEq

/-- Keyed lookup in a carrier's value store (Go returns `nil` for absence,
modelled as `none`). -/
def lookupVal (kvs : List (String × GoValue)) (k : String) : Option GoValue :=
  (kvs.find? (fun p => p.1 == k)).map (fun p => p.2)

/-- `GetTraceID` from the source.  The fasthttp branch performs the unchecked
Go type assertion `v.(string)`; in Go that panics when the stored value is not
a string, modelled here as `Except.error` carrying the panic message.  The
`context.Context` branch uses a checked assertion and degrades to "". -/
def GetTraceID : Carrier → Except String String
  | Carrier.nilCarrier => Except.ok ""
  | Carrier.fasthttpCtx uv =>
      match lookupVal uv "trace_id" with
      | none => Except.ok ""
      | some (GoValue.str s) => Except.ok s
      | some (GoValue.nonStr ty) =>
          Except.error ("panic: interface conversion: interface is " ++ ty ++ ", not string")
  | Carrier.stdCtx vs =>
      match lookupVal vs "trace_id" with
      | some (GoValue.str s) => Except.ok s
      | some (GoValue.nonStr _) => Except.ok ""
      | none => Except.ok ""
  | Carrier.otherCarrier => Except.ok ""

/-- Go's `fmt` `%+d`: decimal with an explicit sign. -/
def intPlusFmt (n : Int) : String :=
  if 0 ≤ n then "+" ++ toString n else toString n

/-- `slog.Level.String` from the Go standard library (the default branch of
`formatLevel` falls back to it). -/
def goLevelString (l : Int) : String :=
  if l < levelInfo then
    (if l - levelDebug = 0 then "DEBUG" else "DEBUG" ++ intPlusFmt (l - levelDebug))
  else if l < levelWarn then
    (if l = 0 then "INFO" else "INFO" ++ intPlusFmt l)
  else if l < levelError then
    (if l - levelWarn = 0 then "WARN" else "WARN" ++ intPlusFmt (l - levelWarn))
  else
    (if l - levelError = 0 then "ERROR" else "ERROR" ++ intPlusFmt (l - levelError))

/-- `formatLevel` from the source: the bare level name (no padding is applied). -/
def formatLevel (level : Int) : String :=
  if level = levelDebug then "DEBUG"
  else if level = levelInfo then "INFO"
  else if level = levelWarn then "WARN"
  else if level = levelError then "ERROR"
  else goLevelString level

/-- `formatLevelWithColor` from the source: the bracketed level name wrapped in
ANSI color codes (gray, blue, yellow, red). -/
def formatLevelWithColor (level : Int) : String :=
  if level = levelDebug then "\x1b[37m[DEBUG]\x1b[0m"
  else if level = levelInfo then "\x1b[34m[INFO]\x1b[0m"
  else if level = levelWarn then "\x1b[33m[WARN]\x1b[0m"
  else if level = levelError then "\x1b[31m[ERROR]\x1b[0m"
  else "[" ++ goLevelString level ++ "]"

/-- Helper for `strings.Replace(s, pat, rep, 1)`: replace the first occurrence
of `pat` in the character list. -/
def replaceOnceAux (pat rep : List Char) : List Char → List Char
  | [] => []
  | c :: rest =>
      if pat.isPrefixOf (c :: rest) then rep ++ (c :: rest).drop pat.length
      else c :: replaceOnceAux pat rep rest

/-- `strings.Replace(s, pat, rep, 1)` from the Go standard library. -/
def stringsReplaceOnce (s pat rep : String) : String :=
  String.mk (replaceOnceAux pat.data rep.data s.data)

/-- One attribute line of the file layout: `fmt.Sprintf("  ├─ %s: %s", ...)`. -/
def fileAttrLine (a : Attr) : String :=
  "  ├─ " ++ (a.key ++ (": " ++ a.value))

/-- The "last attribute" form of an attribute line (marker `└─`). -/
def fileLeafLine (a : Attr) : String :=
  "  └─ " ++ (a.key ++ (": " ++ a.value))

/-- `attrs[len(attrs)-1] = strings.Replace(attrs[len(attrs)-1], "├─", "└─", 1)`:
apply the marker rewrite to the last element of the line list. -/
def setLastReplace : List String → List String
  | [] => []
  | [s] => [stringsReplaceOnce s "├─" "└─"]
  | s :: rest => s :: setLastReplace rest

/-- The header line of the file layout:
`fmt.Sprintf("[%s] %s | %s", timestamp, level, record.Message)`. -/
def fileHeader (r : LogRecord) : String :=
  "[" ++ GoTime.formatFileTs r.time ++ "] " ++ formatLevel r.level ++ " | " ++ r.message

/-- `formatLogEntry` from the source: the header line followed by one indented
line per attribute; when there are at least two attribute lines the last one's
marker is rewritten from `├─` to `└─` (the rewrite is guarded by
`len(attrs) > 1`, so a single attribute line keeps `├─`). -/
def formatLogEntry (r : LogRecord) : String :=
  let attrLines := r.attrs.map fileAttrLine
  let attrLines2 := if attrLines.length > 1 then setLastReplace attrLines else attrLines
  String.intercalate "\n" (fileHeader r :: attrLines2)

/-- The `CustomHandler` fields the embedding needs: the handler options' level
and AddSource flag, and the handler's own addSource flag. -/
structure CustomHandler where
  optsLevel : Option Int
  optsAddSource : Bool
  addSource : Bool
  deriving DecidableEq

/-- The minimum level `CustomHandler.Enabled` compares against: the options'
level when set, otherwise `slog.LevelInfo`. -/
def CustomHandler.minLevel (h : CustomHandler) : Int :=
  match h.optsLevel with
  | some l => l
  | none => levelInfo

/-- `CustomHandler.Enabled`: `level >= minLevel`. -/
def CustomHandler.Enabled (h : CustomHandler) (level : Int) : Bool :=
  decide (h.minLevel ≤ level)

/-- The `key=value` strings `CustomHandler.Handle` renders after the header:
every attribute in record order except those keyed "source". -/
def consoleAttrStrs (r : LogRecord) : List String :=
  (r.attrs.filter (fun a => !(a.key == "source"))).map (fun a => a.key ++ "=" ++ a.value)

/-- The main console line built by `CustomHandler.Handle` before the attribute
list: timestamp, colorized level, message, and — when both addSource flags are
set — the value of the first attribute keyed "source" appended inline. -/
def CustomHandler.mainLine (h : CustomHandler) (r : LogRecord) : String :=
  let base := GoTime.formatConsoleTs r.time ++ " " ++ formatLevelWithColor r.level ++ " " ++
    r.message
  if h.addSource && h.optsAddSource then
    match r.attrs.find? (fun a => a.key == "source") with
    | some a => base ++ " " ++ a.value
    | none => base
  else base

/-- `CustomHandler.Handle`: `none` when the record's level is below the
handler's minimum (nothing written to the console), otherwise the single
rendered console line. -/
def CustomHandler.Handle (h : CustomHandler) (r : LogRecord) : Option String :=
  if CustomHandler.Enabled h r.level then
    let attrs := consoleAttrStrs r
    some (if attrs.length > 0 then
            CustomHandler.mainLine h r ++ " " ++ String.intercalate " " attrs
          else CustomHandler.mainLine h r)
  else none

/-- `CustomHandler.WithAttrs` from the source: `return h`. -/
def CustomHandler.WithAttrs (h : CustomHandler) (attrs : List Attr) : CustomHandler := h

/-- `CustomHandler.WithGroup` from the source: `return h`. -/
def CustomHandler.WithGroup (h : CustomHandler) (name : String) : CustomHandler := h

/-- A variadic argument to `Logger.log`: either a `slog.Attr` or a value of
some other type (the source keeps only arguments that type-assert to
`slog.Attr` and silently ignores the rest). -/
inductive GoArg
  | attr (a : Attr)
  | nonAttr (desc : String)
  deriving DecidableEq

/-- The caller-supplied attributes `Logger.log` keeps from its variadic args. -/
def argAttrs (args : List GoArg) : List Attr :=
  args.filterMap (fun g => match g with | GoArg.attr a => some a | GoArg.nonAttr _ => none)

/-- Attribute assembly in `Logger.log`: the trace id first (when a context was
passed and extraction yielded a non-empty id), then the caller source location
(when the logger's addSource is set and `runtime.Caller` succeeded, modelled by
`callerSource`), then the caller-supplied attributes in order. -/
def logAttrs (ctxPresent : Bool) (traceID : String) (addSource : Bool)
    (callerSource : Option String) (args : List GoArg) : List Attr :=
  (if ctxPresent && !(traceID == "") then [⟨"trace_id", traceID⟩] else []) ++
    (if addSource then
      (match callerSource with | some s => [⟨"source", s⟩] | none => [])
     else []) ++
    argAttrs args

/-- A `Logger` value: its handler and its own addSource flag. -/
structure LoggerCfg where
  handler : CustomHandler
  addSource : Bool
  deriving DecidableEq

/-- The record `slog.NewRecord(time.Now(), level, msg, 0)` + `AddAttrs` builds
inside `Logger.log`. -/
def logRecord (l : LoggerCfg) (now : GoTime) (level : Int) (msg : String)
    (ctxPresent : Bool) (traceID : String) (callerSource : Option String)
    (args : List GoArg) : LogRecord :=
  { time := now, level := level, message := msg,
    attrs := logAttrs ctxPresent traceID l.addSource callerSource args }

/-- The two emissions of `Logger.log`: the console handler's output (gated by
the handler's minimum level inside `Handle`) and the file entry, which the
source renders and hands to `writeToFile` whenever the global file logger is
enabled — with no level check on that path. -/
def logRun (l : LoggerCfg) (fileEnabled : Bool) (now : GoTime) (level : Int)
    (msg : String) (ctxPresent : Bool) (traceID : String)
    (callerSource : Option String) (args : List GoArg) : Option String × Option String :=
  let r := logRecord l now level msg ctxPresent traceID callerSource args
  (CustomHandler.Handle l.handler r,
   if fileEnabled then some (formatLogEntry r) else none)

/-- `InitLogger`: builds the default logger (source tracking on) and `Min`
(source tracking off); both handlers share options with `AddSource = true` and
the given level. -/
def InitLogger (level : Int) : LoggerCfg × LoggerCfg :=
  ({ handler := { optsLevel := some level, optsAddSource := true, addSource := true },
     addSource := true },
   { handler := { optsLevel := some level, optsAddSource := true, addSource := false },
     addSource := false })

/-- The mode bits passed to `os.OpenFile`. -/
inductive OpenMode
  | createAppend
  | truncate
  deriving DecidableEq

/-- An OS-level file handle, identified by the path it was opened with. -/
structure FileHandle where
  name : String
  deriving DecidableEq

/-- The filesystem operations the file sink performs, recorded as a trace. -/
inductive FsEvent
  | mkdirAll (dir : String)
  | openF (name : String) (mode : OpenMode)
  | closeF (name : String)
  | writeF (name : String) (content : String)
  deriving DecidableEq

/-- `FileLogger` state: the fields of the Go struct (`enabled`, `dir`, `date`,
`file`), plus `openFiles` — the paths of handles this sink currently holds open
at OS level.  `file` may keep referencing an already-closed handle, exactly as
the Go pointer does after a failed rotation. -/
structure FileLogger where
  enabled : Bool
  dir : String
  date : String
  file : Option FileHandle
  openFiles : List String
  deriving DecidableEq

/-- `filepath.Join(dir, fmt.Sprintf("%s.log", date))`. -/
def logPath (dir date : String) : String := dir ++ "/" ++ date ++ ".log"

/-- `initFileLogger`: directory resolved from configuration, logging disabled. -/
def initFileLogger (dir : String) : FileLogger :=
  { enabled := false, dir := dir, date := "", file := none, openFiles := [] }

/-- Result of `getLogFile`: the returned handle and error, the state after the
call, and the filesystem events performed. -/
structure GetFileRes where
  file : Option FileHandle
  err : Option String
  state : FileLogger
  events : List FsEvent
  deriving DecidableEq

/-- `getLogFile` from the source.  `today` is `time.Now().Format("2006-01-02")`
at this call; `mkdirOk` and `openOk` are the filesystem's responses to
`os.MkdirAll` and `os.OpenFile`.  On rotation the old handle is closed first;
on a directory or open failure an error value is returned and the `file` and
`date` fields are left as they were. -/
def FileLogger.getLogFile (s : FileLogger) (today : String) (mkdirOk openOk : Bool) :
    GetFileRes :=
  if !s.enabled then ⟨none, none, s, []⟩
  else if s.file.isNone || !(s.date == today) then
    let closed : FileLogger × List FsEvent :=
      match s.file with
      | some h => ({ s with openFiles := s.openFiles.erase h.name }, [FsEvent.closeF h.name])
      | none => (s, [])
    if !mkdirOk then ⟨none, some "failed to create log directory", closed.1, closed.2⟩
    else if !openOk then
      ⟨none, some "failed to open log file", closed.1, closed.2 ++ [FsEvent.mkdirAll s.dir]⟩
    else
      let opened : FileLogger :=
        { closed.1 with
          file := some ⟨logPath s.dir today⟩
          date := today
          openFiles := closed.1.openFiles ++ [logPath s.dir today] }
      ⟨some ⟨logPath s.dir today⟩, none, opened,
       closed.2 ++ [FsEvent.mkdirAll s.dir, FsEvent.openF (logPath s.dir today) OpenMode.createAppend]⟩
  else ⟨s.file, none, s, []⟩

/-- `writeToFile` from the source: a no-op while disabled; otherwise calls
`getLogFile` and, on `err == nil && file != nil`, appends `entry + "\n"`.  The
final `WriteString` produces a write event only when the returned handle is
still open at OS level (a write on a closed handle returns an error that the Go
code ignores, and no bytes reach any file). -/
def FileLogger.writeToFile (s : FileLogger) (entry today : String) (mkdirOk openOk : Bool) :
    FileLogger × List FsEvent :=
  if !s.enabled then (s, [])
  else
    let res := FileLogger.getLogFile s today mkdirOk openOk
    match res.err, res.file with
    | some _, _ => (res.state, res.events)
    | none, none => (res.state, res.events)
    | none, some h =>
        if h.name ∈ res.state.openFiles then
          (res.state, res.events ++ [FsEvent.writeF h.name (entry ++ "\n")])
        else (res.state, res.events)

/-- `EnableFileLogging`: sets the gate (the directory was resolved at init). -/
def EnableFileLogging (s : FileLogger) : FileLogger :=
  { s with enabled := true }

/-- `DisableFileLogging`: closes the open handle, if any, and clears the gate. -/
def DisableFileLogging (s : FileLogger) : FileLogger × List FsEvent :=
  match s.file with
  | some h =>
      ({ s with file := none, enabled := false, openFiles := s.openFiles.erase h.name },
       [FsEvent.closeF h.name])
  | none => ({ s with enabled := false }, [])

/-- A public operation on the file sink (an append carries its entry, its own
calendar day, and the filesystem's responses for that attempt). -/
inductive FLOp
  | enable
  | disable
  | append (entry today : String) (mkdirOk openOk : Bool)
  deriving DecidableEq

/-- One operation against the sink state, with the events it performs. -/
def flStep (s : FileLogger) : FLOp → FileLogger × List FsEvent
  | FLOp.enable => (EnableFileLogging s, [])
  | FLOp.disable => DisableFileLogging s
  | FLOp.append entry today mkdirOk openOk =>
      FileLogger.writeToFile s entry today mkdirOk openOk

/-- Run a sequence of operations, collecting each event tagged with the
operation that performed it. -/
def flRun (s : FileLogger) : List FLOp → FileLogger × List (FLOp × FsEvent)
  | [] => (s, [])
  | op :: ops =>
      let st := flStep s op
      let rest := flRun st.1 ops
      (rest.1, st.2.map (fun e => (op, e)) ++ rest.2)

/-- The rotation-state invariant: the directory is fixed, at most one handle is
open, an open handle is the one the `file` field references, and any referenced
handle is named `<date>.log` under the directory for the date recorded in the
state. -/
def FLInv (dir : String) (s : FileLogger) : Prop :=
  s.dir = dir ∧
  s.openFiles.length ≤ 1 ∧
  (∀ n ∈ s.openFiles, s.file = some ⟨n⟩) ∧
  (∀ h, s.file = some h → h.name = logPath s.dir s.date)

/-- Trace well-formedness: every open uses create-or-append (never truncate),
and every write was performed by an append and targets the file named for that
append's own day, with the entry plus a newline as content. -/
def goodEvent (dir : String) : FLOp × FsEvent → Prop
  | (_, FsEvent.openF _ mode) => mode = OpenMode.createAppend
  | (op, FsEvent.writeF name content) =>
      (match op with
       | FLOp.append entry today _ _ => name = logPath dir today ∧ content = entry ++ "\n"
       | _ => False)
  | _ => True

/-- All events of a tagged trace are well-formed. -/
def flEventsGood (dir : String) (tr : List (FLOp × FsEvent)) : Prop :=
  ∀ pr ∈ tr, goodEvent dir pr

/-- Whether an event writes bytes to a file. -/
def isWriteEvent : FsEvent → Bool
  | FsEvent.writeF _ _ => true
  | _ => false

/-- The attribute lines of the file layout after the first: every line carries
the `├─` marker except the final one, which carries `└─`. -/
def fileTailSpec : List Attr → List String
  | [] => []
  | [a] => [fileLeafLine a]
  | a :: rest => fileAttrLine a :: fileTailSpec rest

/-- The attribute lines of the file layout as the code produces them: with two
or more attributes the last line carries the `└─` marker; a single attribute
line keeps the `├─` marker (the marker rewrite is guarded by `len > 1`). -/
def fileLinesSpec : List Attr → List String
  | [] => []
  | [a] => [fileAttrLine a]
  | a :: rest => fileAttrLine a :: fileTailSpec rest

/-- Sample instant for concrete evaluations: 2025-07-08 10:30:45.123 UTC. -/
def tSample : GoTime := ⟨2025, 7, 8, 10, 30, 45, 123, "UTC"⟩

/-- A record with a single attribute (the trace id), as produced by a
carrier-aware call on the `Min` logger. -/
def recSingle : LogRecord :=
  ⟨tSample, levelInfo, "Processing user request", [⟨"trace_id", "abc-123"⟩]⟩

/-- A record carrying a trace id, a source location and one caller attribute. -/
def recTraceSource : LogRecord :=
  ⟨tSample, levelInfo, "m", [⟨"trace_id", "abc-123"⟩, ⟨"source", "[a.go:1]"⟩, ⟨"k", "v"⟩]⟩

/-- The default logger's console handler after `InitLogger(slog.LevelInfo)`. -/
def hSample : CustomHandler := ⟨some levelInfo, true, true⟩

/-- An enabled file-sink state with no file open yet. -/
def flSampleEnabled : FileLogger :=
  { enabled := true, dir := "logs", date := "", file := none, openFiles := [] }

end Sloglog

namespace Sloglog

/-! Helper lemmas. -/

/-- The marker rewrite on an attribute line: the first occurrence of `├─` is
the marker itself (at character position 2), whatever the key and value hold. -/
theorem stringsReplaceOnce_fileAttrLine (a : Attr) :
    stringsReplaceOnce (fileAttrLine a) "├─" "└─" = fileLeafLine a := by
  rcases a with ⟨⟨kd⟩, ⟨vd⟩⟩
  rfl

theorem setLastReplace_cons (x : String) (ys : List String) (h : ys ≠ []) :
    setLastReplace (x :: ys) = x :: setLastReplace ys := by
  cases ys with
  | nil => exact absurd rfl h
  | cons a l => rfl

theorem fileTailSpec_cons (a : Attr) (ys : List Attr) (h : ys ≠ []) :
    fileTailSpec (a :: ys) = fileAttrLine a :: fileTailSpec ys := by
  cases ys with
  | nil => exact absurd rfl h
  | cons b l => rfl

theorem setLastReplace_map (ys : List Attr) (h : ys ≠ []) :
    setLastReplace (ys.map fileAttrLine) = fileTailSpec ys := by
  induction ys with
  | nil => exact absurd rfl h
  | cons a l ih =>
    cases l with
    | nil =>
        simp only [List.map, setLastReplace, fileTailSpec]
        exact congrArg (fun s => [s]) (stringsReplaceOnce_fileAttrLine a)
    | cons b m =>
        rw [List.map_cons, setLastReplace_cons _ _ (by simp), ih (by simp)]
        exact (fileTailSpec_cons a (b :: m) (by simp)).symm

/-! Claim theorems. -/

/-- C6 (counterexample): the claim predicts a level padded to 5 characters and
the `└─` ("last") marker on a lone attribute line.  On a single-attribute Info
record the code instead renders the unpadded level name `INFO` and keeps the
`├─` marker on the only attribute line, so the rendering differs from the
claimed `"[..] INFO  | ..."` / `"  └─ trace_id: abc-123"` form. -/
theorem formatLogEntry_single_attr_cex :
    formatLogEntry recSingle =
      "[2025-07-08 10:30:45.123] INFO | Processing user request\n  ├─ trace_id: abc-123" ∧
    formatLogEntry recSingle ≠
      "[2025-07-08 10:30:45.123] INFO  | Processing user request\n  └─ trace_id: abc-123" :=
  ⟨rfl, by decide⟩

/-- C6 (amended): for every LogRecord, file-style rendering is the header line
`[<YYYY-MM-DD HH:MM:SS.mmm>] <LEVEL name, unpadded> | <message>` followed by
one line per attribute, each prefixed `"  ├─ "` except the last attribute line,
which is prefixed `"  └─ "` only when there are at least two attributes; a lone
attribute line keeps the `"  ├─ "` prefix. -/
theorem formatLogEntry_structure (r : LogRecord) :
    formatLogEntry r = String.intercalate "\n" (fileHeader r :: fileLinesSpec r.attrs) := by
  rcases r with ⟨t, lv, msg, attrs⟩
  cases attrs with
  | nil => rfl
  | cons a l =>
    cases l with
    | nil => rfl
    | cons b m =>
      show String.intercalate "\n"
          (_ :: (if (List.map fileAttrLine (a :: b :: m)).length > 1 then
                  setLastReplace (List.map fileAttrLine (a :: b :: m))
                else List.map fileAttrLine (a :: b :: m))) = _
      rw [if_pos (by simp), setLastReplace_map _ (by simp),
        fileTailSpec_cons a (b :: m) (by simp)]
      rfl

/-- C8: file-style rendering is a pure function of the LogRecord: two records
agreeing on all four fields render identically, and rendering the same record
any number of times yields byte-identical output. -/
theorem formatLogEntry_pure (r1 r2 : LogRecord) (ht : r1.time = r2.time)
    (hl : r1.level = r2.level) (hm : r1.message = r2.message) (ha : r1.attrs = r2.attrs) :
    formatLogEntry r1 = formatLogEntry r2 ∧
    ∀ n : Nat, (List.replicate n r1).map formatLogEntry =
      List.replicate n (formatLogEntry r1) := by
  have h12 : r1 = r2 := by cases r1; cases r2; simp_all
  subst h12
  exact ⟨rfl, fun n => List.map_replicate⟩

/-- C8 witness: the purity theorem applied at a concrete record. -/
theorem formatLogEntry_pure_witness :
    formatLogEntry recSingle = formatLogEntry recSingle ∧
    ∀ n : Nat, (List.replicate n recSingle).map formatLogEntry =
      List.replicate n (formatLogEntry recSingle) :=
  formatLogEntry_pure recSingle recSingle rfl rfl rfl rfl

/-- C10: `WithAttrs` and `WithGroup` return the receiver unchanged, so console
output after either call is identical to the original handler's output — the
added attributes and group are discarded and cannot influence any rendering. -/
theorem withAttrs_withGroup_identity (h : CustomHandler) (attrs : List Attr)
    (g : String) (r : LogRecord) :
    CustomHandler.WithAttrs h attrs = h ∧
    CustomHandler.WithGroup h g = h ∧
    CustomHandler.Handle (CustomHandler.WithAttrs h attrs) r = CustomHandler.Handle h r ∧
    CustomHandler.Handle (CustomHandler.WithGroup h g) r = CustomHandler.Handle h r :=
  ⟨rfl, rfl, rfl, rfl⟩

/-- C3 (code bug evidence): extraction is total on nil, unrecognized carriers,
an absent key, and a standard context holding a non-string — all yield "".  But
a fasthttp request context holding a non-string under "trace_id" hits the
unchecked type assertion `v.(string)` and panics instead of yielding "". -/
theorem getTraceID_fasthttp_nonstring_panics :
    GetTraceID Carrier.nilCarrier = Except.ok "" ∧
    GetTraceID Carrier.otherCarrier = Except.ok "" ∧
    GetTraceID (Carrier.fasthttpCtx []) = Except.ok "" ∧
    GetTraceID (Carrier.stdCtx [("trace_id", GoValue.nonStr "int")]) = Except.ok "" ∧
    GetTraceID (Carrier.fasthttpCtx [("trace_id", GoValue.str "abc")]) = Except.ok "abc" ∧
    GetTraceID (Carrier.fasthttpCtx [("trace_id", GoValue.nonStr "int")]) =
      Except.error "panic: interface conversion: interface is int, not string" :=
  ⟨rfl, rfl, rfl, rfl, rfl, rfl⟩

/-- C1 (counterexample): with minimum level Info, a Debug call emits nothing on
the console — but the enabled file sink still receives the rendered record, so
the configured minimum level does not govern the file sink. -/
theorem file_sink_ignores_level_cex :
    (logRun (InitLogger levelInfo).1 true tSample levelDebug "m" false "" none []).1 = none ∧
    (logRun (InitLogger levelInfo).1 true tSample levelDebug "m" false "" none []).2 =
      some "[2025-07-08 10:30:45.123] DEBUG | m" :=
  ⟨rfl, rfl⟩

/-- C1 (amended): the minimum level configured via InitLogger governs the
console sink only: every call below it emits nothing to the console (for both
the default and the Min logger), while the file sink — whenever enabled —
receives the file-rendered record regardless of the call's level. -/
theorem minLevel_gates_console_only (minL lvl : Int) (fe ctxp : Bool) (now : GoTime)
    (msg tid : String) (csrc : Option String) (args : List GoArg) (hlt : lvl < minL) :
    ((logRun (InitLogger minL).1 fe now lvl msg ctxp tid csrc args).1 = none ∧
     (logRun (InitLogger minL).1 fe now lvl msg ctxp tid csrc args).2 =
       (if fe then
          some (formatLogEntry (logRecord (InitLogger minL).1 now lvl msg ctxp tid csrc args))
        else none)) ∧
    ((logRun (InitLogger minL).2 fe now lvl msg ctxp tid csrc args).1 = none ∧
     (logRun (InitLogger minL).2 fe now lvl msg ctxp tid csrc args).2 =
       (if fe then
          some (formatLogEntry (logRecord (InitLogger minL).2 now lvl msg ctxp tid csrc args))
        else none)) := by
  have hnot : ¬ (minL ≤ lvl) := by omega
  refine ⟨⟨?_, rfl⟩, ⟨?_, rfl⟩⟩ <;>
    simp [logRun, CustomHandler.Handle, CustomHandler.Enabled, CustomHandler.minLevel,
      InitLogger, logRecord, hnot]

/-- C1 witness: the amended theorem applied at level Debug under minimum Info. -/
theorem minLevel_gates_console_only_witness :
    ((-4 : Int) < 0) ∧
    (logRun (InitLogger 0).1 true tSample (-4) "m" false "" none []).1 = none :=
  ⟨by decide,
   (minLevel_gates_console_only 0 (-4) true false tSample "m" "" none [] (by decide)).1.1⟩

/-- C7: while the file sink is disabled an append is a no-op: the state is
returned unchanged (every field of the rotation state intact) and no
filesystem event — in particular no write — is performed. -/
theorem writeToFile_disabled_noop (s : FileLogger) (entry today : String) (m o : Bool)
    (hdis : s.enabled = false) :
    FileLogger.writeToFile s entry today m o = (s, []) := by
  simp [FileLogger.writeToFile, hdis]

/-- C7 witness: the no-op theorem applied at the freshly initialized state. -/
theorem writeToFile_disabled_noop_witness :
    (initFileLogger "logs").enabled = false ∧
    FileLogger.writeToFile (initFileLogger "logs") "e" "2025-07-08" true true =
      (initFileLogger "logs", []) :=
  ⟨rfl, writeToFile_disabled_noop (initFileLogger "logs") "e" "2025-07-08" true true rfl⟩

/-- C2 (counterexample): on a record holding both a trace id and a source, the
console sink does not render the source among the key=value attributes at all:
the source is inlined into the header line — ahead of the trace id — and the
attribute list holds only `trace_id=...` and the caller attributes.  So on the
console sink the pair is not rendered as the first two attributes with the
trace id before the source, refuting the claim for that sink. -/
theorem console_source_order_cex :
    recTraceSource.attrs =
      [⟨"trace_id", "abc-123"⟩, ⟨"source", "[a.go:1]"⟩, ⟨"k", "v"⟩] ∧
    consoleAttrStrs recTraceSource = ["trace_id=abc-123", "k=v"] ∧
    CustomHandler.Handle hSample recTraceSource =
      some "2025-07-08 10:30:45 UTC \x1b[34m[INFO]\x1b[0m m [a.go:1] trace_id=abc-123 k=v" :=
  ⟨rfl, rfl, rfl⟩

/-- C2 (amended): in the enriched record the trace id (when non-empty) is the
first attribute and the source immediately follows, ahead of every
caller-supplied attribute; file-style rendering preserves that order (its first
attribute line is the trace-id line); console rendering renders `trace_id=T` as
the first key=value attribute and inlines the source into the header line,
ahead of the attribute list. -/
theorem trace_source_first_order (tid src msg : String) (now : GoTime) (lvl : Int)
    (h : CustomHandler) (args : List GoArg) (htid : tid ≠ "")
    (hargs : ∀ a ∈ argAttrs args, a.key ≠ "source") :
    (logAttrs true tid true (some src) args).map Attr.key =
      "trace_id" :: "source" :: (argAttrs args).map Attr.key ∧
    (fileLinesSpec (logAttrs true tid true (some src) args)).head? =
      some (fileAttrLine ⟨"trace_id", tid⟩) ∧
    consoleAttrStrs ⟨now, lvl, msg, logAttrs true tid true (some src) args⟩ =
      ("trace_id=" ++ tid) :: (argAttrs args).map (fun a => a.key ++ "=" ++ a.value) ∧
    ((h.addSource && h.optsAddSource) = true →
      CustomHandler.mainLine h ⟨now, lvl, msg, logAttrs true tid true (some src) args⟩ =
        GoTime.formatConsoleTs now ++ " " ++ formatLevelWithColor lvl ++ " " ++ msg ++
          " " ++ src) := by
  have hbe : (tid == "") = false := beq_eq_false_iff_ne.mpr htid
  have hattrs : logAttrs true tid true (some src) args =
      ⟨"trace_id", tid⟩ :: ⟨"source", src⟩ :: argAttrs args := by
    simp [logAttrs, hbe]
  refine ⟨?_, ?_, ?_, ?_⟩
  · rw [hattrs]; rfl
  · rw [hattrs]; rfl
  · rw [consoleAttrStrs, hattrs]
    have hfilter : (argAttrs args).filter (fun a => !(a.key == "source")) = argAttrs args :=
      List.filter_eq_self.mpr (fun a ha => by
        simpa [Bool.not_eq_true', beq_eq_false_iff_ne] using hargs a ha)
    simp [hfilter]
  · intro hflag
    rw [CustomHandler.mainLine, hattrs]
    simp [hflag, List.find?]

/-- C2 witness: the ordering theorem applied at a concrete record. -/
theorem trace_source_first_order_witness :
    (logAttrs true "abc-123" true (some "[a.go:1]") [GoArg.attr ⟨"k", "v"⟩]).map Attr.key =
      ["trace_id", "source", "k"] :=
  (trace_source_first_order "abc-123" "[a.go:1]" "m" tSample 0 hSample
    [GoArg.attr ⟨"k", "v"⟩] (by decide) (by decide)).1

/-! File-sink state-machine lemmas. -/

/-- Under the invariant, when no handle pointer is held the open-handle set is
empty. -/
theorem file_none_openFiles_nil (dir : String) (s : FileLogger) (h : FLInv dir s)
    (hf : s.file = none) : s.openFiles = [] := by
  cases hof : s.openFiles with
  | nil => rfl
  | cons n rest =>
      have hmem := h.2.2.1 n (by rw [hof]; exact List.mem_cons_self _ _)
      rw [hf] at hmem
      exact absurd hmem (by simp)

/-- Under the invariant, closing the referenced handle empties the open set. -/
theorem closed_openFiles_nil (dir : String) (s : FileLogger) (hd : FileHandle)
    (h : FLInv dir s) (hf : s.file = some hd) : s.openFiles.erase hd.name = [] := by
  cases hof : s.openFiles with
  | nil => rfl
  | cons n rest =>
      have hmem := h.2.2.1 n (by rw [hof]; exact List.mem_cons_self _ _)
      rw [hf] at hmem
      have hn : hd = ⟨n⟩ := by injection hmem
      have hlen := h.2.1
      rw [hof] at hlen
      have hrest : rest = [] := by simpa using hlen
      subst hrest
      rw [hn]
      exact List.erase_cons_head n []

/-- What `getLogFile` guarantees under the invariant: the invariant is
preserved, every event it performs is benign (never a write, and any open uses
create-or-append), and any handle it returns is named for `today`. -/
theorem getLogFile_spec (dir : String) (s : FileLogger) (today : String) (m o : Bool)
    (h : FLInv dir s) :
    FLInv dir (FileLogger.getLogFile s today m o).state ∧
    (∀ e ∈ (FileLogger.getLogFile s today m o).events, ∀ op : FLOp, goodEvent dir (op, e)) ∧
    (∀ hd, (FileLogger.getLogFile s today m o).file = some hd →
      hd.name = logPath dir today ∧
      (FileLogger.getLogFile s today m o).state.file = some hd) := by
  by_cases hen : s.enabled = true
  case neg =>
    have hen2 : s.enabled = false := by simpa using hen
    have hres : FileLogger.getLogFile s today m o = ⟨none, none, s, []⟩ := by
      simp [FileLogger.getLogFile, hen2]
    rw [hres]
    exact ⟨h, by simp, by simp⟩
  case pos =>
  cases hf : s.file with
  | none =>
      have hnil := file_none_openFiles_nil dir s h hf
      cases m with
      | false =>
          have hres : FileLogger.getLogFile s today false o =
              ⟨none, some "failed to create log directory", s, []⟩ := by
            simp [FileLogger.getLogFile, hen, hf]
          rw [hres]
          exact ⟨h, by simp, by simp⟩
      | true =>
          cases o with
          | false =>
              have hres : FileLogger.getLogFile s today true false =
                  ⟨none, some "failed to open log file", s, [FsEvent.mkdirAll s.dir]⟩ := by
                simp [FileLogger.getLogFile, hen, hf]
              rw [hres]
              refine ⟨h, ?_, by simp⟩
              intro e he op
              simp only [List.mem_singleton] at he
              subst he
              trivial
          | true =>
              have hres : FileLogger.getLogFile s today true true =
                  ⟨some ⟨logPath s.dir today⟩, none,
                   { enabled := s.enabled, dir := s.dir, date := today,
                     file := some ⟨logPath s.dir today⟩,
                     openFiles := s.openFiles ++ [logPath s.dir today] },
                   [FsEvent.mkdirAll s.dir,
                    FsEvent.openF (logPath s.dir today) OpenMode.createAppend]⟩ := by
                simp [FileLogger.getLogFile, hen, hf]
              rw [hres]
              refine ⟨⟨h.1, ?_, ?_, ?_⟩, ?_, ?_⟩
              · simp [hnil]
              · intro n hn
                simp [hnil] at hn
                simp [hn]
              · intro hd hdf
                simp at hdf
                simp [← hdf]
              · intro e he op
                simp only [List.mem_cons, List.mem_singleton] at he
                rcases he with rfl | rfl | hfalse
                · trivial
                · rfl
                · exact absurd hfalse (by simp)
              · intro hd hdf
                simp at hdf
                subst hdf
                exact ⟨by rw [h.1], rfl⟩
  | some hd0 =>
      by_cases hdeq : s.date = today
      case pos =>
        have hres : FileLogger.getLogFile s today m o = ⟨some hd0, none, s, []⟩ := by
          simp [FileLogger.getLogFile, hen, hf, hdeq]
        rw [hres]
        refine ⟨h, by simp, ?_⟩
        intro hd hdf
        simp at hdf
        subst hdf
        have hname := h.2.2.2 hd0 hf
        rw [h.1, hdeq] at hname
        exact ⟨hname, by rw [hf]⟩
      case neg =>
        have hdb : (s.date == today) = false := beq_eq_false_iff_ne.mpr hdeq
        have hnil := closed_openFiles_nil dir s hd0 h hf
        cases m with
        | false =>
            have hres : FileLogger.getLogFile s today false o =
                ⟨none, some "failed to create log directory",
                 { enabled := s.enabled, dir := s.dir, date := s.date, file := s.file,
                   openFiles := s.openFiles.erase hd0.name },
                 [FsEvent.closeF hd0.name]⟩ := by
              simp [FileLogger.getLogFile, hen, hf, hdb]
            rw [hres]
            refine ⟨⟨h.1, ?_, ?_, ?_⟩, ?_, by simp⟩
            · simp [hnil]
            · intro n hn
              rw [hnil] at hn
              exact absurd hn (by simp)
            · intro hd hdf
              exact h.2.2.2 hd hdf
            · intro e he op
              simp only [List.mem_singleton] at he
              subst he
              trivial
        | true =>
            cases o with
            | false =>
                have hres : FileLogger.getLogFile s today true false =
                    ⟨none, some "failed to open log file",
                     { enabled := s.enabled, dir := s.dir, date := s.date, file := s.file,
                       openFiles := s.openFiles.erase hd0.name },
                     [FsEvent.closeF hd0.name, FsEvent.mkdirAll s.dir]⟩ := by
                  simp [FileLogger.getLogFile, hen, hf, hdb]
                rw [hres]
                refine ⟨⟨h.1, ?_, ?_, ?_⟩, ?_, by simp⟩
                · simp [hnil]
                · intro n hn
                  rw [hnil] at hn
                  exact absurd hn (by simp)
                · intro hd hdf
                  exact h.2.2.2 hd hdf
                · intro e he op
                  simp only [List.mem_cons, List.mem_singleton] at he
                  rcases he with rfl | rfl | hfalse
                  · trivial
                  · trivial
                  · exact absurd hfalse (by simp)
            | true =>
                have hres : FileLogger.getLogFile s today true true =
                    ⟨some ⟨logPath s.dir today⟩, none,
                     { enabled := s.enabled, dir := s.dir, date := today,
                       file := some ⟨logPath s.dir today⟩,
                       openFiles := s.openFiles.erase hd0.name ++ [logPath s.dir today] },
                     [FsEvent.closeF hd0.name, FsEvent.mkdirAll s.dir,
                      FsEvent.openF (logPath s.dir today) OpenMode.createAppend]⟩ := by
                  simp [FileLogger.getLogFile, hen, hf, hdb]
                rw [hres]
                refine ⟨⟨h.1, ?_, ?_, ?_⟩, ?_, ?_⟩
                · simp [hnil]
                · intro n hn
                  simp [hnil] at hn
                  simp [hn]
                · intro hd hdf
                  simp at hdf
                  simp [← hdf]
                · intro e he op
                  simp only [List.mem_cons, List.mem_singleton] at he
                  rcases he with rfl | rfl | rfl | hfalse
                  · trivial
                  · trivial
                  · rfl
                  · exact absurd hfalse (by simp)
                · intro hd hdf
                  simp at hdf
                  subst hdf
                  exact ⟨by rw [h.1], rfl⟩

/-- What an append (`writeToFile`) guarantees under the invariant: the
invariant is preserved and every event of the attempt is well-formed for that
append — in particular any write targets `<today>.log` with the entry plus a
newline. -/
theorem writeToFile_spec (dir : String) (s : FileLogger) (entry today : String)
    (m o : Bool) (h : FLInv dir s) :
    FLInv dir (FileLogger.writeToFile s entry today m o).1 ∧
    ∀ e ∈ (FileLogger.writeToFile s entry today m o).2,
      goodEvent dir (FLOp.append entry today m o, e) := by
  by_cases hen : s.enabled = true
  case neg =>
    have hen2 : s.enabled = false := by simpa using hen
    rw [writeToFile_disabled_noop s entry today m o hen2]
    exact ⟨h, by simp⟩
  case pos =>
  obtain ⟨hInv, hEvents, hFile⟩ := getLogFile_spec dir s today m o h
  have hunfold : FileLogger.writeToFile s entry today m o =
      (let res := FileLogger.getLogFile s today m o
       match res.err, res.file with
       | some _, _ => (res.state, res.events)
       | none, none => (res.state, res.events)
       | none, some hd =>
           if hd.name ∈ res.state.openFiles then
             (res.state, res.events ++ [FsEvent.writeF hd.name (entry ++ "\n")])
           else (res.state, res.events)) := by
    simp [FileLogger.writeToFile, hen]
  rw [hunfold]
  cases herr : (FileLogger.getLogFile s today m o).err with
  | some msg =>
      simp only [herr]
      exact ⟨hInv, fun e he => hEvents e he _⟩
  | none =>
      cases hfl : (FileLogger.getLogFile s today m o).file with
      | none =>
          simp only [herr, hfl]
          exact ⟨hInv, fun e he => hEvents e he _⟩
      | some hd =>
          simp only [herr, hfl]
          obtain ⟨hname, _⟩ := hFile hd hfl
          by_cases hmem : hd.name ∈ (FileLogger.getLogFile s today m o).state.openFiles
          · rw [if_pos hmem]
            refine ⟨hInv, ?_⟩
            intro e he
            rcases List.mem_append.mp he with hold | hnew
            · exact hEvents e hold _
            · rw [List.mem_singleton.mp hnew]
              exact ⟨hname, rfl⟩
          · rw [if_neg hmem]
            exact ⟨hInv, fun e he => hEvents e he _⟩

/-- One operation preserves the invariant and performs only well-formed
events. -/
theorem flStep_spec (dir : String) (s : FileLogger) (op : FLOp) (h : FLInv dir s) :
    FLInv dir (flStep s op).1 ∧ ∀ e ∈ (flStep s op).2, goodEvent dir (op, e) := by
  cases op with
  | enable => exact ⟨⟨h.1, h.2.1, h.2.2.1, h.2.2.2⟩, by simp [flStep, EnableFileLogging]⟩
  | disable =>
      cases hf : s.file with
      | none =>
          have hres : flStep s FLOp.disable = ({ s with enabled := false }, []) := by
            simp [flStep, DisableFileLogging, hf]
          rw [hres]
          exact ⟨⟨h.1, h.2.1, fun n hn => h.2.2.1 n hn, fun hd hdf => h.2.2.2 hd hdf⟩, by simp⟩
      | some hd0 =>
          have hnil := closed_openFiles_nil dir s hd0 h hf
          have hres : flStep s FLOp.disable =
              ({ enabled := false, dir := s.dir, date := s.date, file := none,
                 openFiles := s.openFiles.erase hd0.name }, [FsEvent.closeF hd0.name]) := by
            simp [flStep, DisableFileLogging, hf]
          rw [hres]
          refine ⟨⟨h.1, by simp [hnil], ?_, by simp⟩, ?_⟩
          · intro n hn
            rw [hnil] at hn
            exact absurd hn (by simp)
          · intro e he
            simp only [List.mem_singleton] at he
            subst he
            trivial
  | append entry today mk op2 => exact writeToFile_spec dir s entry today mk op2 h

/-- The invariant and trace well-formedness hold after any run from an
invariant state. -/
theorem flRun_spec (dir : String) (ops : List FLOp) (s : FileLogger) (h : FLInv dir s) :
    FLInv dir (flRun s ops).1 ∧ flEventsGood dir (flRun s ops).2 := by
  induction ops generalizing s with
  | nil => exact ⟨h, by simp [flRun, flEventsGood]⟩
  | cons op ops ih =>
      obtain ⟨h1, h2⟩ := flStep_spec dir s op h
      obtain ⟨h3, h4⟩ := ih (flStep s op).1 h1
      refine ⟨by simpa [flRun] using h3, ?_⟩
      intro pr hpr
      simp only [flRun, List.mem_append, List.mem_map] at hpr
      rcases hpr with ⟨e, he, hpre⟩ | hpr
      · rw [← hpre]
        exact h2 e he
      · exact h4 pr hpr

/-- The initial file-logger state satisfies the invariant. -/
theorem initFileLogger_inv (dir : String) : FLInv dir (initFileLogger dir) :=
  ⟨rfl, by simp [initFileLogger], by simp [initFileLogger], by simp [initFileLogger]⟩

/-- C4: after every sequence of enable, disable and append operations from the
initial state, at most one log-file handle is open, an open handle is named
`<currentDate>.log` under the configured directory for the date recorded in
the rotation state, every file open in the whole trace uses create-or-append
mode (never truncate), and every write the trace performs was made by an
append and targets the file named for that append's own day. -/
theorem fileLogger_rotation_invariant (dir : String) (ops : List FLOp) :
    FLInv dir (flRun (initFileLogger dir) ops).1 ∧
    flEventsGood dir (flRun (initFileLogger dir) ops).2 :=
  flRun_spec dir ops (initFileLogger dir) (initFileLogger_inv dir)

/-- C4 witness: the invariant theorem applied to a concrete run with an
enable, a same-day append, a cross-day append and a disable. -/
theorem fileLogger_rotation_invariant_witness :
    FLInv "logs" (flRun (initFileLogger "logs")
      [FLOp.enable, FLOp.append "x" "2025-07-08" true true,
       FLOp.append "y" "2025-07-09" true true, FLOp.disable]).1 :=
  (fileLogger_rotation_invariant "logs"
    [FLOp.enable, FLOp.append "x" "2025-07-08" true true,
     FLOp.append "y" "2025-07-09" true true, FLOp.disable]).1

/-- C5: when an append needs to (re)open the day file and `os.MkdirAll` or
`os.OpenFile` fails, the failure surfaces as a recoverable error value from
`getLogFile` inside that write attempt; the attempt writes nothing (the
rendered content is dropped), the sink stays enabled, and the next append with
a cooperating filesystem reopens and writes the new entry to today's file.
`writeToFile` itself returns nothing to the logging caller, so no error
propagates out of the logging call. -/
theorem open_failure_dropped_and_retried (s : FileLogger) (entry entry2 today : String)
    (m o : Bool) (hen : s.enabled = true) (hrot : s.file = none ∨ s.date ≠ today)
    (hbad : m = false ∨ o = false) :
    ((FileLogger.getLogFile s today m o).err).isSome = true ∧
    (∀ e ∈ (FileLogger.writeToFile s entry today m o).2, isWriteEvent e = false) ∧
    (FileLogger.writeToFile s entry today m o).1.enabled = true ∧
    FsEvent.writeF (logPath s.dir today) (entry2 ++ "\n") ∈
      (FileLogger.writeToFile (FileLogger.writeToFile s entry today m o).1
        entry2 today true true).2 := by
  cases hf : s.file with
  | none =>
      have hretry : FsEvent.writeF (logPath s.dir today) (entry2 ++ "\n") ∈
          (FileLogger.writeToFile s entry2 today true true).2 := by
        have hget2 : FileLogger.getLogFile s today true true =
            ⟨some ⟨logPath s.dir today⟩, none,
             { enabled := s.enabled, dir := s.dir, date := today,
               file := some ⟨logPath s.dir today⟩,
               openFiles := s.openFiles ++ [logPath s.dir today] },
             [FsEvent.mkdirAll s.dir,
              FsEvent.openF (logPath s.dir today) OpenMode.createAppend]⟩ := by
          simp [FileLogger.getLogFile, hen, hf]
        simp [FileLogger.writeToFile, hen, hget2]
      cases m with
      | false =>
          have hget : FileLogger.getLogFile s today false o =
              ⟨none, some "failed to create log directory", s, []⟩ := by
            simp [FileLogger.getLogFile, hen, hf]
          have hw1 : FileLogger.writeToFile s entry today false o = (s, []) := by
            simp [FileLogger.writeToFile, hen, hget]
          rw [hget, hw1]
          exact ⟨rfl, by simp, hen, hretry⟩
      | true =>
          have ho : o = false := by
            rcases hbad with hm | ho
            · exact absurd hm (by simp)
            · exact ho
          subst ho
          have hget : FileLogger.getLogFile s today true false =
              ⟨none, some "failed to open log file", s, [FsEvent.mkdirAll s.dir]⟩ := by
            simp [FileLogger.getLogFile, hen, hf]
          have hw1 : FileLogger.writeToFile s entry today true false =
              (s, [FsEvent.mkdirAll s.dir]) := by
            simp [FileLogger.writeToFile, hen, hget]
          rw [hget, hw1]
          exact ⟨rfl, by simp [isWriteEvent], hen, hretry⟩
  | some hd0 =>
      have hne : s.date ≠ today := by
        rcases hrot with hl | hr
        · rw [hf] at hl; exact absurd hl (by simp)
        · exact hr
      have hdb : (s.date == today) = false := beq_eq_false_iff_ne.mpr hne
      have hretry : FsEvent.writeF (logPath s.dir today) (entry2 ++ "\n") ∈
          (FileLogger.writeToFile
            { enabled := true, dir := s.dir, date := s.date, file := s.file,
              openFiles := s.openFiles.erase hd0.name }
            entry2 today true true).2 := by
        have hget2 : FileLogger.getLogFile
            { enabled := true, dir := s.dir, date := s.date, file := s.file,
              openFiles := s.openFiles.erase hd0.name } today true true =
            ⟨some ⟨logPath s.dir today⟩, none,
             { enabled := true, dir := s.dir, date := today,
               file := some ⟨logPath s.dir today⟩,
               openFiles := (s.openFiles.erase hd0.name).erase hd0.name ++
                 [logPath s.dir today] },
             [FsEvent.closeF hd0.name, FsEvent.mkdirAll s.dir,
              FsEvent.openF (logPath s.dir today) OpenMode.createAppend]⟩ := by
          simp [FileLogger.getLogFile, hen, hf, hdb]
        simp [FileLogger.writeToFile, hen, hget2]
      cases m with
      | false =>
          have hget : FileLogger.getLogFile s today false o =
              ⟨none, some "failed to create log directory",
               { enabled := true, dir := s.dir, date := s.date, file := s.file,
                 openFiles := s.openFiles.erase hd0.name },
               [FsEvent.closeF hd0.name]⟩ := by
            simp [FileLogger.getLogFile, hen, hf, hdb]
          have hw1 : FileLogger.writeToFile s entry today false o =
              ({ enabled := true, dir := s.dir, date := s.date, file := s.file,
                 openFiles := s.openFiles.erase hd0.name }, [FsEvent.closeF hd0.name]) := by
            simp [FileLogger.writeToFile, hen, hget]
          rw [hget, hw1]
          exact ⟨rfl, by simp [isWriteEvent], rfl, hretry⟩
      | true =>
          have ho : o = false := by
            rcases hbad with hm | ho
            · exact absurd hm (by simp)
            · exact ho
          subst ho
          have hget : FileLogger.getLogFile s today true false =
              ⟨none, some "failed to open log file",
               { enabled := true, dir := s.dir, date := s.date, file := s.file,
                 openFiles := s.openFiles.erase hd0.name },
               [FsEvent.closeF hd0.name, FsEvent.mkdirAll s.dir]⟩ := by
            simp [FileLogger.getLogFile, hen, hf, hdb]
          have hw1 : FileLogger.writeToFile s entry today true false =
              ({ enabled := true, dir := s.dir, date := s.date, file := s.file,
                 openFiles := s.openFiles.erase hd0.name },
               [FsEvent.closeF hd0.name, FsEvent.mkdirAll s.dir]) := by
            simp [FileLogger.writeToFile, hen, hget]
          rw [hget, hw1]
          exact ⟨rfl, by simp [isWriteEvent], rfl, hretry⟩

/-- C5 witness: the failure-and-retry theorem applied at an enabled state with
no open file, a failing directory creation, and a succeeding retry. -/
theorem open_failure_dropped_and_retried_witness :
    flSampleEnabled.enabled = true ∧
    ((FileLogger.getLogFile flSampleEnabled "2025-07-08" false true).err).isSome = true :=
  ⟨rfl, (open_failure_dropped_and_retried flSampleEnabled "e" "e2" "2025-07-08" false true
    rfl (Or.inl rfl) (Or.inl rfl)).1⟩

end Sloglog
